import Mathlib

/-!
Shallow embedding of `src/services/geocodingService.ts` from the tracking
repository: the address resolver with in-memory cache and regional fallback.

Modelling conventions:
* JavaScript numbers are modelled as rationals (`ℚ`); the coordinate
  comparisons and constants in the source are exact decimals.
* The candidate fields `lat` / `lon` coming back from the provider are JSON
  values; we model them with `JsonVal`, together with JavaScript truthiness
  (`jsTruthy`) and `parseFloat` (`jsParseFloat`, `none` standing for `NaN`;
  exponent forms of `parseFloat` input are not needed by any claim and are
  mapped like unparsable text would be only when they contain no leading
  plain decimal).
* The single `fetch` call is modelled by an oracle `String → FetchResult`
  giving the provider behaviour for each query string; `FetchResult` covers
  a rejected fetch, a non-ok response, a body whose `json()` rejects, a JSON
  body that is not a candidate array, and a candidate array.
* The async function's reject channel is modelled with `Except`: a thrown
  error inside the `try` block is an `Except.error` of `tryGeocode`, and the
  surrounding function body returns `Except String _` so that "never
  rejects" is a statement, not a typing artefact.
* The module-level `Map` cache is explicit state: an association list in
  insertion order (`Map.set` on an existing key overwrites in place, on a
  fresh key appends), threaded through each call together with a count of
  outbound network requests.
* `String.trim` / `toLowerCase` / `includes` of JavaScript are modelled on
  the character list of the string (`jsTrim`, `jsToLower`, `strContains`).
-/

namespace Tracking

/-- Structure `Coordinates` from the source: a latitude/longitude pair. -/
structure Coordinates where
  lat : ℚ
  lng : ℚ
deriving DecidableEq, Repr

/-- Structure `GeocodingResult` from the source. -/
structure GeocodingResult where
  coordinates : Coordinates
  formattedAddress : String
deriving DecidableEq, Repr

/-- JSON/JavaScript values as they can appear in a candidate's `lat`/`lon`
field (`undef` is a missing field). -/
inductive JsonVal where
  | nul
  | undef
  | bool (b : Bool)
  | num (q : ℚ)
  | str (s : String)
deriving DecidableEq, Repr

/-- JavaScript truthiness of a `JsonVal` (`0`, `""`, `null`, `undefined`,
`false` are falsy). -/
def jsTruthy : JsonVal → Bool
  | .nul => false
  | .undef => false
  | .bool b => b
  | .num q => decide (q ≠ 0)
  | .str s => decide (s ≠ "")

/-- Digits of a decimal string, most significant first, to a natural. -/
def digitsToNat : List Char → ℕ
  | [] => 0
  | c :: cs => (digitsToNat cs) + c.toNat.sub 48 * 10 ^ cs.length

/-- Split off the longest prefix of decimal digits. -/
def takeDigits (cs : List Char) : List Char × List Char :=
  (cs.takeWhile Char.isDigit, cs.dropWhile Char.isDigit)

/-- Parse a float from the character list of a string: skip leading
whitespace, optional sign, digits, optional fraction; trailing characters
are ignored; `none` is `NaN` (no digit consumed). -/
def parseFloatChars (cs0 : List Char) : Option ℚ :=
  let cs1 := cs0.dropWhile Char.isWhitespace
  let sp : ℚ × List Char :=
    match cs1 with
    | '-' :: r => (-1, r)
    | '+' :: r => (1, r)
    | _ => (1, cs1)
  let ip := takeDigits sp.2
  let fp : List Char :=
    match ip.2 with
    | '.' :: r => (takeDigits r).1
    | _ => []
  if ip.1.isEmpty ∧ fp.isEmpty then none
  else some (sp.1 * ((digitsToNat ip.1 : ℚ) + (digitsToNat fp : ℚ) / 10 ^ fp.length))

/-- JavaScript `parseFloat` applied to a JSON value: the argument is first
converted to a string (`null ↦ "null"`, numbers print back exactly in this
model), then parsed; `none` is `NaN`. -/
def jsParseFloat : JsonVal → Option ℚ
  | .nul => none
  | .undef => none
  | .bool _ => none
  | .num q => some q
  | .str s => parseFloatChars s.data

/-- One provider candidate record: `lat`/`lon` as raw JSON values and an
optional `display_name` string. -/
structure Candidate where
  lat : JsonVal
  lon : JsonVal
  display_name : Option String
deriving DecidableEq, Repr

/-- The parsed body of the provider response: `response.json()` rejecting,
JSON that is not an array of candidates, or a candidate array. -/
inductive JsonBody where
  | malformed
  | nonCandidates
  | candidates (data : List Candidate)
deriving DecidableEq, Repr

/-- Behaviour of one `fetch` of the provider: rejected, or a response with
an `ok` flag and a body. -/
inductive FetchResult where
  | netError
  | httpResponse (ok : Bool) (body : JsonBody)
deriving DecidableEq, Repr

/-- The module-level `geocodingCache` `Map`, as explicit state: an
association list in insertion order. -/
abbrev GeocodingCache := List (String × GeocodingResult)

/-- Lookup, as `Map.get`/`Map.has`: first (unique) binding of the key. -/
def cacheGet : GeocodingCache → String → Option GeocodingResult
  | [], _ => none
  | (k', v) :: rest, k => if k' = k then some v else cacheGet rest k

/-- Update, as `Map.set`: overwrite an existing binding in place, else append. -/
def cacheSet : GeocodingCache → String → GeocodingResult → GeocodingCache
  | [], k, v => [(k, v)]
  | (k', v') :: rest, k, v =>
      if k' = k then (k, v) :: rest else (k', v') :: cacheSet rest k v

/-- The `fallbackCoordinates` record from the source. -/
structure FallbackTable where
  us : Coordinates
  europe : Coordinates
  asia : Coordinates
  default : Coordinates
deriving DecidableEq, Repr

/-- The `fallbackCoordinates` constant from the source. -/
def fallbackCoordinates : FallbackTable :=
  { us := ⟨39.8283, -98.5795⟩
    europe := ⟨54.5260, 15.2551⟩
    asia := ⟨34.0479, 100.6197⟩
    default := ⟨39.8283, -98.5795⟩ }

/-- JavaScript `String.prototype.trim` on the character list. -/
def jsTrim (s : String) : String :=
  ⟨((s.data.dropWhile Char.isWhitespace).reverse.dropWhile Char.isWhitespace).reverse⟩

/-- JavaScript `String.prototype.toLowerCase` (ASCII range suffices for the
region keywords). -/
def jsToLower (s : String) : String :=
  ⟨s.data.map Char.toLower⟩

/-- Prefix test on character lists. -/
def isPrefixChars : List Char → List Char → Bool
  | [], _ => true
  | _ :: _, [] => false
  | a :: as, b :: bs => a = b && isPrefixChars as bs

/-- Contiguous-substring test on character lists. -/
def isInfixChars (sub : List Char) : List Char → Bool
  | [] => sub.isEmpty
  | c :: rest => isPrefixChars sub (c :: rest) || isInfixChars sub rest

/-- JavaScript `String.prototype.includes`. -/
def strContains (s sub : String) : Bool :=
  isInfixChars sub.data s.data

/-- The fallback-coordinate selection in the `catch` branch of
`geocodeAddress`: substring scan on the lower-cased trimmed address,
Europe keywords first, then Asia keywords, else the default. -/
def regionFallback (cleanAddress : String) : Coordinates :=
  let lowerAddress := jsToLower cleanAddress
  if strContains lowerAddress "europe" || strContains lowerAddress "uk" ||
      strContains lowerAddress "germany" || strContains lowerAddress "france" then
    fallbackCoordinates.europe
  else if strContains lowerAddress "asia" || strContains lowerAddress "china" ||
      strContains lowerAddress "japan" || strContains lowerAddress "india" then
    fallbackCoordinates.asia
  else
    fallbackCoordinates.default

/-- The `try` block of `geocodeAddress` after the fetch: every `throw` in
the source is an `Except.error` carrying the thrown message. -/
def tryGeocode (fr : FetchResult) (cleanAddress : String) :
    Except String GeocodingResult :=
  match fr with
  | .netError => .error "fetch rejected"
  | .httpResponse ok body =>
    if !ok then .error "Geocoding request failed"
    else
      match body with
      | .malformed => .error "response.json() rejected"
      | .nonCandidates => .error "Address not found"
      | .candidates data =>
        match data with
        | [] => .error "Address not found"
        | c :: _ =>
          if jsTruthy c.lat && jsTruthy c.lon then
            match jsParseFloat c.lat, jsParseFloat c.lon with
            | some lat, some lng =>
              if lat < -90 ∨ lat > 90 ∨ lng < -180 ∨ lng > 180 then
                .error "Invalid coordinates returned"
              else
                .ok { coordinates := ⟨lat, lng⟩
                      formattedAddress :=
                        match c.display_name with
                        | some s => if s = "" then cleanAddress else s
                        | none => cleanAddress }
            | _, _ => .error "Invalid coordinates returned"
          else .error "Address not found"

/-- Function `geocodeAddress` from the source. The oracle gives the provider's
behaviour for the query string; the result carries the returned
`GeocodingResult`, the cache after the call, and the number of outbound
network requests issued by the call. The `Except` layer is the async
function's reject channel. -/
def geocodeAddress (oracle : String → FetchResult) (cache : GeocodingCache)
    (address : String) :
    Except String (GeocodingResult × GeocodingCache × ℕ) :=
  match cacheGet cache address with
  | some r => .ok (r, cache, 0)
  | none =>
    let cleanAddress := jsTrim address
    if cleanAddress = "" then
      let fallbackResult : GeocodingResult :=
        ⟨fallbackCoordinates.default, "Unknown Location"⟩
      .ok (fallbackResult, cacheSet cache address fallbackResult, 0)
    else
      match tryGeocode (oracle cleanAddress) cleanAddress with
      | .ok result => .ok (result, cacheSet cache address result, 1)
      | .error _ =>
        let fallbackResult : GeocodingResult :=
          ⟨regionFallback cleanAddress, cleanAddress⟩
        .ok (fallbackResult, cacheSet cache address fallbackResult, 1)

/-- The loop body of `geocodeMultipleAddresses`, parametric in the per-item
resolver so that the `catch` branch (substitute the default fallback and
continue) is visible: on `Except.error` the item gets the default fallback
coordinate with the input address as display text and the loop continues. -/
def geocodeManyWith
    (f : GeocodingCache → String → Except String (GeocodingResult × GeocodingCache × ℕ))
    (cache : GeocodingCache) :
    List String → List GeocodingResult × GeocodingCache × ℕ
  | [] => ([], cache, 0)
  | address :: rest =>
    match f cache address with
    | .ok (r, c1, n1) =>
      let t := geocodeManyWith f c1 rest
      (r :: t.1, t.2.1, n1 + t.2.2)
    | .error _ =>
      let t := geocodeManyWith f cache rest
      (⟨fallbackCoordinates.default, address⟩ :: t.1, t.2.1, t.2.2)

/-- Function `geocodeMultipleAddresses` from the source: strictly sequential
resolution via `geocodeAddress`. -/
def geocodeMultipleAddresses (oracle : String → FetchResult)
    (cache : GeocodingCache) (addresses : List String) :
    List GeocodingResult × GeocodingCache × ℕ :=
  geocodeManyWith (geocodeAddress oracle) cache addresses

/-- The batch loop with the dead `catch` branch removed (an erroring item is
dropped): used to state that the `catch` branch is unreachable. -/
def geocodeManyNoCatch (oracle : String → FetchResult) (cache : GeocodingCache) :
    List String → List GeocodingResult × GeocodingCache × ℕ
  | [] => ([], cache, 0)
  | address :: rest =>
    match geocodeAddress oracle cache address with
    | .ok (r, c1, n1) =>
      let t := geocodeManyNoCatch oracle c1 rest
      (r :: t.1, t.2.1, n1 + t.2.2)
    | .error _ => geocodeManyNoCatch oracle cache rest

/-- The Coordinate invariant of the data model: latitude in `[-90, 90]`
and longitude in `[-180, 180]`. -/
def ValidCoord (c : Coordinates) : Prop :=
  -90 ≤ c.lat ∧ c.lat ≤ 90 ∧ -180 ≤ c.lng ∧ c.lng ≤ 180

/-- The provider outcomes enumerated by the single failure classification:
non-success status, network failure, malformed response, zero candidates,
latitude/longitude failing to parse, or a parsed coordinate out of range. -/
def lookupFailureOutcome (fr : FetchResult) : Prop :=
  fr = .netError ∨
  (∃ b, fr = .httpResponse false b) ∨
  fr = .httpResponse true .malformed ∨
  fr = .httpResponse true .nonCandidates ∨
  fr = .httpResponse true (.candidates []) ∨
  ∃ c rest, fr = .httpResponse true (.candidates (c :: rest)) ∧
    (jsParseFloat c.lat = none ∨ jsParseFloat c.lon = none ∨
     (∃ la, jsParseFloat c.lat = some la ∧ (la < -90 ∨ la > 90)) ∨
     (∃ lo, jsParseFloat c.lon = some lo ∧ (lo < -180 ∨ lo > 180)))

/-! ### Cache lemmas -/

theorem cacheGet_cacheSet_self (c : GeocodingCache) (k : String) (v : GeocodingResult) :
    cacheGet (cacheSet c k v) k = some v := by
  induction c with
  | nil => simp [cacheSet, cacheGet]
  | cons kv rest ih =>
    obtain ⟨k', v'⟩ := kv
    by_cases h : k' = k <;> simp [cacheSet, cacheGet, h, ih]

theorem cacheGet_cacheSet_ne (c : GeocodingCache) (k k' : String) (v : GeocodingResult)
    (h : k' ≠ k) : cacheGet (cacheSet c k v) k' = cacheGet c k' := by
  induction c with
  | nil => simp [cacheSet, cacheGet, Ne.symm h]
  | cons kv rest ih =>
    obtain ⟨k0, v0⟩ := kv
    by_cases h0 : k0 = k
    · subst h0
      simp [cacheSet, cacheGet, Ne.symm h]
    · simp only [cacheSet, if_neg h0]
      by_cases h1 : k0 = k' <;> simp [cacheGet, h1, ih, Ne.symm h]

theorem cacheSet_of_fresh (c : GeocodingCache) (k : String) (v : GeocodingResult)
    (h : cacheGet c k = none) : cacheSet c k v = c ++ [(k, v)] := by
  induction c with
  | nil => simp [cacheSet]
  | cons kv rest ih =>
    obtain ⟨k0, v0⟩ := kv
    by_cases h0 : k0 = k
    · simp [cacheGet, h0] at h
    · simp [cacheGet, h0] at h
      simp [cacheSet, h0, ih h]

theorem mem_cacheSet (c : GeocodingCache) (k : String) (v : GeocodingResult)
    (kv : String × GeocodingResult) (h : kv ∈ cacheSet c k v) :
    kv = (k, v) ∨ kv ∈ c := by
  induction c with
  | nil => simpa [cacheSet] using h
  | cons kv0 rest ih =>
    obtain ⟨k0, v0⟩ := kv0
    by_cases h0 : k0 = k
    · simp [cacheSet, h0] at h
      rcases h with h | h
      · exact Or.inl h
      · exact Or.inr (List.mem_cons_of_mem _ h)
    · simp [cacheSet, h0] at h
      rcases h with h | h
      · exact Or.inr (by simp [h])
      · rcases ih h with h' | h'
        · exact Or.inl h'
        · exact Or.inr (List.mem_cons_of_mem _ h')

theorem cacheGet_mem (c : GeocodingCache) (k : String) (v : GeocodingResult)
    (h : cacheGet c k = some v) : (k, v) ∈ c := by
  induction c with
  | nil => simp [cacheGet] at h
  | cons kv rest ih =>
    obtain ⟨k0, v0⟩ := kv
    by_cases h0 : k0 = k
    · subst h0
      simp [cacheGet] at h
      simp [h]
    · simp [cacheGet, h0] at h
      exact List.mem_cons_of_mem _ (ih h)

/-! ### Unfolding lemmas for `geocodeAddress` -/

theorem geocodeAddress_hit (oracle : String → FetchResult) (cache : GeocodingCache)
    (address : String) (r : GeocodingResult) (h : cacheGet cache address = some r) :
    geocodeAddress oracle cache address = .ok (r, cache, 0) := by
  simp [geocodeAddress, h]

theorem geocodeAddress_empty (oracle : String → FetchResult) (cache : GeocodingCache)
    (address : String) (h : cacheGet cache address = none) (he : jsTrim address = "") :
    geocodeAddress oracle cache address =
      .ok (⟨fallbackCoordinates.default, "Unknown Location"⟩,
           cacheSet cache address ⟨fallbackCoordinates.default, "Unknown Location"⟩, 0) := by
  simp [geocodeAddress, h, he]

theorem geocodeAddress_lookup_ok (oracle : String → FetchResult) (cache : GeocodingCache)
    (address : String) (result : GeocodingResult) (h : cacheGet cache address = none)
    (hne : jsTrim address ≠ "")
    (ht : tryGeocode (oracle (jsTrim address)) (jsTrim address) = .ok result) :
    geocodeAddress oracle cache address =
      .ok (result, cacheSet cache address result, 1) := by
  simp [geocodeAddress, h, hne, ht]

theorem geocodeAddress_lookup_err (oracle : String → FetchResult) (cache : GeocodingCache)
    (address : String) (e : String) (h : cacheGet cache address = none)
    (hne : jsTrim address ≠ "")
    (ht : tryGeocode (oracle (jsTrim address)) (jsTrim address) = .error e) :
    geocodeAddress oracle cache address =
      .ok (⟨regionFallback (jsTrim address), jsTrim address⟩,
           cacheSet cache address ⟨regionFallback (jsTrim address), jsTrim address⟩, 1) := by
  simp [geocodeAddress, h, hne, ht]

theorem geocodeAddress_isOk (oracle : String → FetchResult) (cache : GeocodingCache)
    (address : String) : ∃ out, geocodeAddress oracle cache address = .ok out := by
  cases h : cacheGet cache address with
  | some r => exact ⟨_, geocodeAddress_hit _ _ _ _ h⟩
  | none =>
    by_cases he : jsTrim address = ""
    · exact ⟨_, geocodeAddress_empty _ _ _ h he⟩
    · cases ht : tryGeocode (oracle (jsTrim address)) (jsTrim address) with
      | ok r => exact ⟨_, geocodeAddress_lookup_ok _ _ _ _ h he ht⟩
      | error e => exact ⟨_, geocodeAddress_lookup_err _ _ _ _ h he ht⟩

theorem geocodeAddress_cases (oracle : String → FetchResult) (cache : GeocodingCache)
    (address : String) (r : GeocodingResult) (c' : GeocodingCache) (n : ℕ)
    (h : geocodeAddress oracle cache address = .ok (r, c', n)) :
    (cacheGet cache address = some r ∧ c' = cache ∧ n = 0) ∨
    (cacheGet cache address = none ∧ c' = cacheSet cache address r ∧
      ((jsTrim address = "" ∧ n = 0 ∧
          r = ⟨fallbackCoordinates.default, "Unknown Location"⟩) ∨
       (jsTrim address ≠ "" ∧ n = 1 ∧
          (tryGeocode (oracle (jsTrim address)) (jsTrim address) = .ok r ∨
           ∃ e, tryGeocode (oracle (jsTrim address)) (jsTrim address) = .error e ∧
              r = ⟨regionFallback (jsTrim address), jsTrim address⟩)))) := by
  cases hc : cacheGet cache address with
  | some v =>
    rw [geocodeAddress_hit _ _ _ _ hc] at h
    simp only [Except.ok.injEq, Prod.mk.injEq] at h
    obtain ⟨rfl, rfl, rfl⟩ := h
    exact Or.inl ⟨rfl, rfl, rfl⟩
  | none =>
    by_cases he : jsTrim address = ""
    · rw [geocodeAddress_empty _ _ _ hc he] at h
      simp only [Except.ok.injEq, Prod.mk.injEq] at h
      obtain ⟨rfl, rfl, rfl⟩ := h
      exact Or.inr ⟨rfl, rfl, Or.inl ⟨he, rfl, rfl⟩⟩
    · cases ht : tryGeocode (oracle (jsTrim address)) (jsTrim address) with
      | ok result =>
        rw [geocodeAddress_lookup_ok _ _ _ _ hc he ht] at h
        simp only [Except.ok.injEq, Prod.mk.injEq] at h
        obtain ⟨rfl, rfl, rfl⟩ := h
        exact Or.inr ⟨rfl, rfl, Or.inr ⟨he, rfl, Or.inl rfl⟩⟩
      | error e =>
        rw [geocodeAddress_lookup_err _ _ _ _ hc he ht] at h
        simp only [Except.ok.injEq, Prod.mk.injEq] at h
        obtain ⟨rfl, rfl, rfl⟩ := h
        exact Or.inr ⟨rfl, rfl, Or.inr ⟨he, rfl, Or.inr ⟨e, rfl, rfl⟩⟩⟩

theorem geocodeAddress_caches_self (oracle : String → FetchResult) (cache : GeocodingCache)
    (address : String) (r : GeocodingResult) (c' : GeocodingCache) (n : ℕ)
    (h : geocodeAddress oracle cache address = .ok (r, c', n)) :
    cacheGet c' address = some r := by
  rcases geocodeAddress_cases _ _ _ _ _ _ h with ⟨h1, rfl, _⟩ | ⟨h1, rfl, _⟩
  · exact h1
  · exact cacheGet_cacheSet_self _ _ _

theorem geocodeAddress_preserves (oracle : String → FetchResult) (cache : GeocodingCache)
    (address k : String) (v r : GeocodingResult) (c' : GeocodingCache) (n : ℕ)
    (hk : cacheGet cache k = some v)
    (h : geocodeAddress oracle cache address = .ok (r, c', n)) :
    cacheGet c' k = some v := by
  rcases geocodeAddress_cases _ _ _ _ _ _ h with ⟨_, rfl, _⟩ | ⟨h1, rfl, _⟩
  · exact hk
  · have hne : k ≠ address := by
      rintro rfl
      rw [hk] at h1
      exact Option.some_ne_none v h1
    rw [cacheGet_cacheSet_ne _ _ _ _ hne]
    exact hk

/-! ### Coordinate validity -/

theorem default_valid : ValidCoord fallbackCoordinates.default := by
  refine ⟨?_, ?_, ?_, ?_⟩ <;> norm_num [fallbackCoordinates]

theorem europe_valid : ValidCoord fallbackCoordinates.europe := by
  refine ⟨?_, ?_, ?_, ?_⟩ <;> norm_num [fallbackCoordinates]

theorem asia_valid : ValidCoord fallbackCoordinates.asia := by
  refine ⟨?_, ?_, ?_, ?_⟩ <;> norm_num [fallbackCoordinates]

theorem regionFallback_valid (s : String) : ValidCoord (regionFallback s) := by
  simp only [regionFallback]
  split
  · exact europe_valid
  split
  · exact asia_valid
  · exact default_valid

theorem tryGeocode_valid (fr : FetchResult) (clean : String) (r : GeocodingResult)
    (h : tryGeocode fr clean = .ok r) : ValidCoord r.coordinates := by
  cases fr with
  | netError => simp [tryGeocode] at h
  | httpResponse ok body =>
    cases ok with
    | false => simp [tryGeocode] at h
    | true =>
      cases body with
      | malformed => simp [tryGeocode] at h
      | nonCandidates => simp [tryGeocode] at h
      | candidates data =>
        cases data with
        | nil => simp [tryGeocode] at h
        | cons c rest =>
          by_cases h1 : jsTruthy c.lat && jsTruthy c.lon
          · cases hla : jsParseFloat c.lat with
            | none => simp [tryGeocode, h1, hla] at h
            | some la =>
              cases hlo : jsParseFloat c.lon with
              | none => simp [tryGeocode, h1, hla, hlo] at h
              | some lo =>
                by_cases hr : la < -90 ∨ la > 90 ∨ lo < -180 ∨ lo > 180
                · simp [tryGeocode, h1, hla, hlo, hr] at h
                · simp only [tryGeocode, h1, hla, hlo, if_true, if_neg hr,
                    Bool.not_true, Bool.false_eq_true, if_false,
                    Except.ok.injEq] at h
                  push_neg at hr
                  subst h
                  exact hr
          · simp [tryGeocode, h1] at h

/-! ### Batch lemmas -/

theorem geocodeMultiple_nil (oracle : String → FetchResult) (cache : GeocodingCache) :
    geocodeMultipleAddresses oracle cache [] = ([], cache, 0) := rfl

theorem geocodeMultiple_cons (oracle : String → FetchResult) (cache : GeocodingCache)
    (a : String) (rest : List String) (r : GeocodingResult) (c1 : GeocodingCache) (n1 : ℕ)
    (h : geocodeAddress oracle cache a = .ok (r, c1, n1)) :
    geocodeMultipleAddresses oracle cache (a :: rest) =
      (r :: (geocodeMultipleAddresses oracle c1 rest).1,
       (geocodeMultipleAddresses oracle c1 rest).2.1,
       n1 + (geocodeMultipleAddresses oracle c1 rest).2.2) := by
  simp [geocodeMultipleAddresses, geocodeManyWith, h]

theorem geocodeManyWith_length
    (f : GeocodingCache → String → Except String (GeocodingResult × GeocodingCache × ℕ))
    (addrs : List String) : ∀ cache : GeocodingCache,
    (geocodeManyWith f cache addrs).1.length = addrs.length := by
  induction addrs with
  | nil => intro cache; rfl
  | cons a rest ih =>
    intro cache
    cases hf : f cache a with
    | ok out =>
      obtain ⟨r, c1, n1⟩ := out
      simp [geocodeManyWith, hf, ih]
    | error e => simp [geocodeManyWith, hf, ih]

theorem geocodeMultiple_eq_noCatch (oracle : String → FetchResult) (addrs : List String) :
    ∀ cache : GeocodingCache,
    geocodeMultipleAddresses oracle cache addrs = geocodeManyNoCatch oracle cache addrs := by
  induction addrs with
  | nil => intro cache; rfl
  | cons a rest ih =>
    intro cache
    obtain ⟨⟨r, c1, n1⟩, hok⟩ := geocodeAddress_isOk oracle cache a
    rw [geocodeMultiple_cons _ _ _ _ _ _ _ hok]
    simp [geocodeManyNoCatch, hok, ih]

theorem geocodeMultiple_preserves (oracle : String → FetchResult) (addrs : List String) :
    ∀ (cache : GeocodingCache) (k : String) (v : GeocodingResult)
      (rs : List GeocodingResult) (c' : GeocodingCache) (n : ℕ),
    cacheGet cache k = some v →
    geocodeMultipleAddresses oracle cache addrs = (rs, c', n) →
    cacheGet c' k = some v := by
  induction addrs with
  | nil =>
    intro cache k v rs c' n hk h
    rw [geocodeMultiple_nil] at h
    simp only [Prod.mk.injEq] at h
    obtain ⟨rfl, rfl, rfl⟩ := h
    exact hk
  | cons a rest ih =>
    intro cache k v rs c' n hk h
    obtain ⟨⟨r, c1, n1⟩, hok⟩ := geocodeAddress_isOk oracle cache a
    rw [geocodeMultiple_cons _ _ _ _ _ _ _ hok] at h
    simp only [Prod.mk.injEq] at h
    obtain ⟨hrs, hc', hn⟩ := h
    have h1 : cacheGet c1 k = some v := geocodeAddress_preserves _ _ _ _ _ _ _ _ hk hok
    have h2 := ih c1 k v (geocodeMultipleAddresses oracle c1 rest).1
      (geocodeMultipleAddresses oracle c1 rest).2.1
      (geocodeMultipleAddresses oracle c1 rest).2.2 h1 rfl
    rw [hc'] at h2
    exact h2

theorem geocodeMultiple_warm (oracle oracle2 : String → FetchResult) (addrs : List String) :
    ∀ (cache : GeocodingCache) (rs : List GeocodingResult) (c' : GeocodingCache) (n : ℕ),
    geocodeMultipleAddresses oracle cache addrs = (rs, c', n) →
    geocodeMultipleAddresses oracle2 c' addrs = (rs, c', 0) := by
  induction addrs with
  | nil =>
    intro cache rs c' n h
    rw [geocodeMultiple_nil] at h
    simp only [Prod.mk.injEq] at h
    obtain ⟨rfl, rfl, rfl⟩ := h
    rfl
  | cons a rest ih =>
    intro cache rs c' n h
    obtain ⟨⟨r, c1, n1⟩, hok⟩ := geocodeAddress_isOk oracle cache a
    rw [geocodeMultiple_cons _ _ _ _ _ _ _ hok] at h
    simp only [Prod.mk.injEq] at h
    obtain ⟨hrs, hc', hn⟩ := h
    have hself : cacheGet c1 a = some r := geocodeAddress_caches_self _ _ _ _ _ _ hok
    have hc'a : cacheGet c' a = some r := by
      rw [← hc']
      exact geocodeMultiple_preserves oracle rest c1 a r _ _ _ hself rfl
    have hrest : geocodeMultipleAddresses oracle2 c' rest =
        ((geocodeMultipleAddresses oracle c1 rest).1, c', 0) := by
      have h2 := ih c1 (geocodeMultipleAddresses oracle c1 rest).1
        (geocodeMultipleAddresses oracle c1 rest).2.1
        (geocodeMultipleAddresses oracle c1 rest).2.2 rfl
      rw [hc'] at h2
      exact h2
    rw [geocodeMultiple_cons oracle2 c' a rest r c' 0 (geocodeAddress_hit _ _ _ _ hc'a),
      hrest]
    simp [← hrs]

/-! ### Substring lemmas -/

theorem isPrefixChars_iff (a : List Char) : ∀ b : List Char,
    isPrefixChars a b = true ↔ a <+: b := by
  induction a with
  | nil => intro b; simp [isPrefixChars]
  | cons x xs ih =>
    intro b
    cases b with
    | nil => simp [isPrefixChars]
    | cons y ys => simp [isPrefixChars, ih, List.cons_prefix_cons]

theorem isInfixChars_iff (a b : List Char) : isInfixChars a b = true ↔ a <:+: b := by
  induction b with
  | nil => simp [isInfixChars, List.isEmpty_iff, List.infix_nil]
  | cons y ys ih => simp [isInfixChars, isPrefixChars_iff, ih, List.infix_cons_iff]

theorem strContains_mono (s sub1 sub2 : String) (h12 : sub1.data <:+: sub2.data)
    (h : strContains s sub2 = true) : strContains s sub1 = true := by
  rw [strContains, isInfixChars_iff] at h ⊢
  exact h12.trans h

/-! ### Failure classification -/

theorem lookupFailure_error (fr : FetchResult) (clean : String)
    (h : lookupFailureOutcome fr) : ∃ e, tryGeocode fr clean = .error e := by
  rcases h with rfl | ⟨b, rfl⟩ | rfl | rfl | rfl | ⟨c, rest, rfl, hcase⟩
  · exact ⟨_, rfl⟩
  · exact ⟨_, rfl⟩
  · exact ⟨_, rfl⟩
  · exact ⟨_, rfl⟩
  · exact ⟨_, rfl⟩
  · by_cases h1 : jsTruthy c.lat && jsTruthy c.lon
    · rcases hcase with hla | hlo | ⟨la, hla, hr⟩ | ⟨lo, hlo, hr⟩
      · exact ⟨"Invalid coordinates returned", by
          cases hlo : jsParseFloat c.lon <;> simp [tryGeocode, h1, hla, hlo]⟩
      · exact ⟨"Invalid coordinates returned", by
          cases hla : jsParseFloat c.lat <;> simp [tryGeocode, h1, hla, hlo]⟩
      · cases hlo : jsParseFloat c.lon with
        | none => exact ⟨"Invalid coordinates returned", by simp [tryGeocode, h1, hla, hlo]⟩
        | some lo =>
          have hcond : la < -90 ∨ la > 90 ∨ lo < -180 ∨ lo > 180 := by
            rcases hr with h' | h'
            · exact Or.inl h'
            · exact Or.inr (Or.inl h')
          exact ⟨"Invalid coordinates returned", by
            simp [tryGeocode, h1, hla, hlo, hcond]⟩
      · cases hla : jsParseFloat c.lat with
        | none => exact ⟨"Invalid coordinates returned", by simp [tryGeocode, h1, hla, hlo]⟩
        | some la =>
          have hcond : la < -90 ∨ la > 90 ∨ lo < -180 ∨ lo > 180 := by
            rcases hr with h' | h'
            · exact Or.inr (Or.inr (Or.inl h'))
            · exact Or.inr (Or.inr (Or.inr h'))
          exact ⟨"Invalid coordinates returned", by
            simp [tryGeocode, h1, hla, hlo, hcond]⟩
    · exact ⟨"Address not found", by simp [tryGeocode, h1]⟩

/-! ### Result validity -/

theorem geocodeAddress_valid (oracle : String → FetchResult) (cache : GeocodingCache)
    (address : String) (r : GeocodingResult) (c' : GeocodingCache) (n : ℕ)
    (hcache : ∀ kv ∈ cache, ValidCoord kv.2.coordinates)
    (h : geocodeAddress oracle cache address = .ok (r, c', n)) :
    ValidCoord r.coordinates ∧ ∀ kv ∈ c', ValidCoord kv.2.coordinates := by
  rcases geocodeAddress_cases _ _ _ _ _ _ h with ⟨h1, rfl, _⟩ | ⟨h1, rfl, hcase⟩
  · exact ⟨hcache _ (cacheGet_mem _ _ _ h1), hcache⟩
  · have hr : ValidCoord r.coordinates := by
      rcases hcase with ⟨_, _, rfl⟩ | ⟨_, _, hok | ⟨e, _, rfl⟩⟩
      · exact default_valid
      · exact tryGeocode_valid _ _ _ hok
      · exact regionFallback_valid _
    refine ⟨hr, fun kv hkv => ?_⟩
    rcases mem_cacheSet _ _ _ _ hkv with rfl | hkv'
    · exact hr
    · exact hcache _ hkv'

theorem geocodeMultiple_valid (oracle : String → FetchResult) (addrs : List String) :
    ∀ (cache : GeocodingCache) (rs : List GeocodingResult) (c' : GeocodingCache) (n : ℕ),
    (∀ kv ∈ cache, ValidCoord kv.2.coordinates) →
    geocodeMultipleAddresses oracle cache addrs = (rs, c', n) →
    (∀ r ∈ rs, ValidCoord r.coordinates) ∧ ∀ kv ∈ c', ValidCoord kv.2.coordinates := by
  induction addrs with
  | nil =>
    intro cache rs c' n hcache h
    rw [geocodeMultiple_nil] at h
    simp only [Prod.mk.injEq] at h
    obtain ⟨rfl, rfl, rfl⟩ := h
    exact ⟨by simp, hcache⟩
  | cons a rest ih =>
    intro cache rs c' n hcache h
    obtain ⟨⟨r, c1, n1⟩, hok⟩ := geocodeAddress_isOk oracle cache a
    rw [geocodeMultiple_cons _ _ _ _ _ _ _ hok] at h
    simp only [Prod.mk.injEq] at h
    obtain ⟨hrs, hc', hn⟩ := h
    obtain ⟨hr, hc1⟩ := geocodeAddress_valid _ _ _ _ _ _ hcache hok
    obtain ⟨hrest, hcfin⟩ := ih c1 (geocodeMultipleAddresses oracle c1 rest).1
      (geocodeMultipleAddresses oracle c1 rest).2.1
      (geocodeMultipleAddresses oracle c1 rest).2.2 hc1 rfl
    constructor
    · intro x hx
      rw [← hrs] at hx
      rcases List.mem_cons.mp hx with rfl | hx'
      · exact hr
      · exact hrest _ hx'
    · rw [← hc']
      exact hcfin

/-! ### Claim theorems -/

/-- C1: for every input address, cache state and provider behaviour,
`geocodeAddress` returns a `GeocodingResult` through the `ok` channel and
never rejects to its caller; consequently the per-item catch branch in
`geocodeMultipleAddresses` is unreachable: the batch coincides with the
variant whose catch branch is removed. -/
theorem C1_never_rejects (oracle : String → FetchResult) (cache : GeocodingCache)
    (address : String) (addrs : List String) :
    (∃ out, geocodeAddress oracle cache address = .ok out) ∧
    geocodeMultipleAddresses oracle cache addrs = geocodeManyNoCatch oracle cache addrs :=
  ⟨geocodeAddress_isOk oracle cache address, geocodeMultiple_eq_noCatch oracle addrs cache⟩

/-- C2: after a first call of `geocodeAddress` on an address completes, a
second call on the same address returns the identical result with the cache
unchanged and zero network requests, under any provider behaviour; likewise
re-running `geocodeMultipleAddresses` on the same sequence from the warm
cache returns the same results with zero network requests. -/
theorem C2_cache_hit_idempotent (oracle oracle2 : String → FetchResult)
    (cache : GeocodingCache) (address : String) (addrs : List String)
    (r : GeocodingResult) (c1 : GeocodingCache) (n : ℕ)
    (rs : List GeocodingResult) (c2 : GeocodingCache) (m : ℕ)
    (h1 : geocodeAddress oracle cache address = .ok (r, c1, n))
    (h2 : geocodeMultipleAddresses oracle cache addrs = (rs, c2, m)) :
    geocodeAddress oracle2 c1 address = .ok (r, c1, 0) ∧
    geocodeMultipleAddresses oracle2 c2 addrs = (rs, c2, 0) :=
  ⟨geocodeAddress_hit _ _ _ _ (geocodeAddress_caches_self _ _ _ _ _ _ h1),
   geocodeMultiple_warm _ _ _ _ _ _ _ h2⟩

/-- Witness for C2 at a concrete input: address `"A"` resolved once from
the empty cache, and the batch `["A", "B"]` re-run from its warm cache,
both with zero further requests even under a changed provider. -/
theorem C2_witness :
    geocodeAddress (fun _ => FetchResult.httpResponse true JsonBody.malformed)
        [("A", ⟨⟨39.8283, -98.5795⟩, "A"⟩)] "A" =
      .ok (⟨⟨39.8283, -98.5795⟩, "A"⟩, [("A", ⟨⟨39.8283, -98.5795⟩, "A"⟩)], 0) ∧
    geocodeMultipleAddresses (fun _ => FetchResult.httpResponse true JsonBody.malformed)
        [("A", ⟨⟨39.8283, -98.5795⟩, "A"⟩), ("B", ⟨⟨39.8283, -98.5795⟩, "B"⟩)] ["A", "B"] =
      ([⟨⟨39.8283, -98.5795⟩, "A"⟩, ⟨⟨39.8283, -98.5795⟩, "B"⟩],
       [("A", ⟨⟨39.8283, -98.5795⟩, "A"⟩), ("B", ⟨⟨39.8283, -98.5795⟩, "B"⟩)], 0) :=
  C2_cache_hit_idempotent (fun _ => FetchResult.netError)
    (fun _ => FetchResult.httpResponse true JsonBody.malformed) [] "A" ["A", "B"]
    ⟨⟨39.8283, -98.5795⟩, "A"⟩ [("A", ⟨⟨39.8283, -98.5795⟩, "A"⟩)] 1
    [⟨⟨39.8283, -98.5795⟩, "A"⟩, ⟨⟨39.8283, -98.5795⟩, "B"⟩]
    [("A", ⟨⟨39.8283, -98.5795⟩, "A"⟩), ("B", ⟨⟨39.8283, -98.5795⟩, "B"⟩)] 2 rfl rfl

/-- C3: for every uncached address that is non-empty after trimming, every
provider outcome in the uniform failure classification (request rejected,
non-ok status, malformed body, zero candidates, unparsable or out-of-range
coordinates) yields the same regional-fallback result, cached under the
original key, with one network request. -/
theorem C3_failure_classification (oracle : String → FetchResult) (cache : GeocodingCache)
    (address : String) (hc : cacheGet cache address = none)
    (hne : jsTrim address ≠ "")
    (hf : lookupFailureOutcome (oracle (jsTrim address))) :
    geocodeAddress oracle cache address =
      .ok (⟨regionFallback (jsTrim address), jsTrim address⟩,
           cacheSet cache address ⟨regionFallback (jsTrim address), jsTrim address⟩, 1) := by
  obtain ⟨e, he⟩ := lookupFailure_error _ (jsTrim address) hf
  exact geocodeAddress_lookup_err _ _ _ _ hc hne he

/-- Witness for C3 at a concrete input: a provider response whose first
candidate has the out-of-range latitude `200` for the address `"xyz"`
yields the default fallback coordinate, never the invalid value. -/
theorem C3_witness :
    cacheGet [] "xyz" = none ∧
    jsTrim "xyz" ≠ "" ∧
    lookupFailureOutcome (FetchResult.httpResponse true
      (JsonBody.candidates [⟨JsonVal.num 200, JsonVal.num 10, some "Bad"⟩])) ∧
    geocodeAddress (fun _ => FetchResult.httpResponse true
        (JsonBody.candidates [⟨JsonVal.num 200, JsonVal.num 10, some "Bad"⟩])) [] "xyz" =
      .ok (⟨⟨39.8283, -98.5795⟩, "xyz"⟩, [("xyz", ⟨⟨39.8283, -98.5795⟩, "xyz"⟩)], 1) := by
  have hf : lookupFailureOutcome (FetchResult.httpResponse true
      (JsonBody.candidates [⟨JsonVal.num 200, JsonVal.num 10, some "Bad"⟩])) := by
    right; right; right; right; right
    exact ⟨_, _, rfl, Or.inr (Or.inr (Or.inl ⟨200, rfl, Or.inr (by norm_num)⟩))⟩
  have h := C3_failure_classification (fun _ => FetchResult.httpResponse true
      (JsonBody.candidates [⟨JsonVal.num 200, JsonVal.num 10, some "Bad"⟩]))
    [] "xyz" rfl (by decide) hf
  exact ⟨rfl, by decide, hf, h.trans rfl⟩

/-- C6: for every uncached address whose trimmed form is empty,
`geocodeAddress` returns the default-region coordinate with display text
`"Unknown Location"`, stores it under the original untrimmed key, and
issues no network request. -/
theorem C6_empty_input (oracle : String → FetchResult) (cache : GeocodingCache)
    (address : String) (hc : cacheGet cache address = none)
    (he : jsTrim address = "") :
    geocodeAddress oracle cache address =
      .ok (⟨⟨39.8283, -98.5795⟩, "Unknown Location"⟩,
           cacheSet cache address ⟨⟨39.8283, -98.5795⟩, "Unknown Location"⟩, 0) ∧
    cacheGet (cacheSet cache address ⟨⟨39.8283, -98.5795⟩, "Unknown Location"⟩) address =
      some ⟨⟨39.8283, -98.5795⟩, "Unknown Location"⟩ :=
  ⟨geocodeAddress_empty oracle cache address hc he, cacheGet_cacheSet_self _ _ _⟩

/-- Witness for C6 at the concrete inputs `""` and `"   "`. -/
theorem C6_witness :
    (geocodeAddress (fun _ => FetchResult.netError) [] "" =
      .ok (⟨⟨39.8283, -98.5795⟩, "Unknown Location"⟩,
           cacheSet [] "" ⟨⟨39.8283, -98.5795⟩, "Unknown Location"⟩, 0)) ∧
    (geocodeAddress (fun _ => FetchResult.netError) [] "   " =
      .ok (⟨⟨39.8283, -98.5795⟩, "Unknown Location"⟩,
           cacheSet [] "   " ⟨⟨39.8283, -98.5795⟩, "Unknown Location"⟩, 0)) :=
  ⟨(C6_empty_input (fun _ => FetchResult.netError) [] "" rfl (by decide)).1,
   (C6_empty_input (fun _ => FetchResult.netError) [] "   " rfl (by decide)).1⟩

/-- C4: for every uncached, non-empty-after-trim address whose lookup
fails, the fallback region is chosen by case-insensitive substring
containment on the trimmed lower-cased address, Europe keywords first,
then Asia keywords, else the default coordinate; the display text is the
trimmed input; and, there being no word-boundary check, an address
containing `"ukulele"` selects the Europe coordinate. -/
theorem C4_regional_selection (oracle : String → FetchResult) (cache : GeocodingCache)
    (address : String) (e : String) (hc : cacheGet cache address = none)
    (hne : jsTrim address ≠ "")
    (ht : tryGeocode (oracle (jsTrim address)) (jsTrim address) = .error e) :
    geocodeAddress oracle cache address =
      .ok (⟨regionFallback (jsTrim address), jsTrim address⟩,
           cacheSet cache address ⟨regionFallback (jsTrim address), jsTrim address⟩, 1) ∧
    regionFallback (jsTrim address) =
      (if strContains (jsToLower (jsTrim address)) "europe" ||
          strContains (jsToLower (jsTrim address)) "uk" ||
          strContains (jsToLower (jsTrim address)) "germany" ||
          strContains (jsToLower (jsTrim address)) "france" then
        (⟨54.526, 15.2551⟩ : Coordinates)
      else if strContains (jsToLower (jsTrim address)) "asia" ||
          strContains (jsToLower (jsTrim address)) "china" ||
          strContains (jsToLower (jsTrim address)) "japan" ||
          strContains (jsToLower (jsTrim address)) "india" then
        ⟨34.0479, 100.6197⟩
      else ⟨39.8283, -98.5795⟩) ∧
    (strContains (jsToLower (jsTrim address)) "ukulele" = true →
      regionFallback (jsTrim address) = ⟨54.526, 15.2551⟩) := by
  refine ⟨geocodeAddress_lookup_err _ _ _ _ hc hne ht, ?_, ?_⟩
  · cases h1 : (strContains (jsToLower (jsTrim address)) "europe" ||
        strContains (jsToLower (jsTrim address)) "uk" ||
        strContains (jsToLower (jsTrim address)) "germany" ||
        strContains (jsToLower (jsTrim address)) "france") with
    | true => simp only [regionFallback, h1, if_true]; norm_num [fallbackCoordinates]
    | false =>
      cases h2 : (strContains (jsToLower (jsTrim address)) "asia" ||
          strContains (jsToLower (jsTrim address)) "china" ||
          strContains (jsToLower (jsTrim address)) "japan" ||
          strContains (jsToLower (jsTrim address)) "india") with
      | true => simp only [regionFallback, h1, h2]; norm_num [fallbackCoordinates]
      | false => simp only [regionFallback, h1, h2]; norm_num [fallbackCoordinates]
  · intro hu
    have h2 : strContains (jsToLower (jsTrim address)) "uk" = true :=
      strContains_mono _ "uk" "ukulele" (by decide) hu
    simp only [regionFallback, h2, Bool.true_or, Bool.or_true, if_true]
    norm_num [fallbackCoordinates]

/-- Witness for C4 at concrete inputs: a provider failure (non-ok status)
for `"  some address in Germany "` gives the Europe fallback coordinate
with trimmed display text, and an address containing `"ukulele"` also
selects the Europe coordinate. -/
theorem C4_witness :
    geocodeAddress (fun _ => FetchResult.httpResponse false JsonBody.nonCandidates) []
        "  some address in Germany " =
      .ok (⟨⟨54.526, 15.2551⟩, "some address in Germany"⟩,
           [("  some address in Germany ", ⟨⟨54.526, 15.2551⟩, "some address in Germany"⟩)], 1) ∧
    regionFallback (jsTrim "a ukulele shop") = ⟨54.526, 15.2551⟩ := by
  have h1 := C4_regional_selection
    (fun _ => FetchResult.httpResponse false JsonBody.nonCandidates)
    [] "  some address in Germany " "Geocoding request failed" rfl (by decide) rfl
  have h2 := C4_regional_selection (fun _ => FetchResult.netError) [] "a ukulele shop"
    "fetch rejected" rfl (by decide) rfl
  refine ⟨?_, h2.2.2 (by decide)⟩
  have hcond : (strContains (jsToLower (jsTrim "  some address in Germany ")) "europe" ||
      strContains (jsToLower (jsTrim "  some address in Germany ")) "uk" ||
      strContains (jsToLower (jsTrim "  some address in Germany ")) "germany" ||
      strContains (jsToLower (jsTrim "  some address in Germany ")) "france") = true := by
    decide
  have hreg : regionFallback (jsTrim "  some address in Germany ") =
      (⟨54.526, 15.2551⟩ : Coordinates) := by
    rw [h1.2.1, if_pos hcond]
  rw [h1.1, hreg]
  rfl

/-- C5 (amended): for every uncached, non-empty-after-trim address, if the
provider responds successfully with at least one candidate whose latitude
and longitude fields are truthy and parse as numbers within range, the
result carries the parsed pair, the display text is the provider's display
string (or the trimmed input when the provider supplies none), and the
result is cached under the original address key with one request. -/
theorem C5_success_path (oracle : String → FetchResult) (cache : GeocodingCache)
    (address : String) (c : Candidate) (rest : List Candidate) (la lo : ℚ)
    (hc : cacheGet cache address = none) (hne : jsTrim address ≠ "")
    (hresp : oracle (jsTrim address) = .httpResponse true (.candidates (c :: rest)))
    (htl : jsTruthy c.lat = true) (hto : jsTruthy c.lon = true)
    (hla : jsParseFloat c.lat = some la) (hlo : jsParseFloat c.lon = some lo)
    (hla1 : -90 ≤ la) (hla2 : la ≤ 90) (hlo1 : -180 ≤ lo) (hlo2 : lo ≤ 180) :
    ∃ fmt : String,
      geocodeAddress oracle cache address =
        .ok (⟨⟨la, lo⟩, fmt⟩, cacheSet cache address ⟨⟨la, lo⟩, fmt⟩, 1) ∧
      (∀ s, c.display_name = some s → s ≠ "" → fmt = s) ∧
      ((c.display_name = none ∨ c.display_name = some "") → fmt = jsTrim address) := by
  refine ⟨match c.display_name with
          | some s => if s = "" then jsTrim address else s
          | none => jsTrim address, ?_, ?_, ?_⟩
  · apply geocodeAddress_lookup_ok _ _ _ _ hc hne
    rw [hresp]
    have hr : ¬(la < -90 ∨ la > 90 ∨ lo < -180 ∨ lo > 180) := by
      push_neg
      exact ⟨hla1, hla2, hlo1, hlo2⟩
    simp [tryGeocode, htl, hto, hla, hlo, hr]
  · intro s hs hsne
    simp [hs, hsne]
  · rintro (hn | hn) <;> simp [hn]

/-- C5 counterexample: the claim as stated fails on the code. A successful
provider response whose first candidate has latitude `0` (the JSON number
zero) parses as an in-range number, yet `geocodeAddress` takes the
regional-fallback path and returns the default coordinate rather than the
parsed pair, because candidate presence is tested by truthiness. -/
theorem C5_counterexample :
    jsParseFloat (JsonVal.num 0) = some 0 ∧
    ((-90 : ℚ) ≤ 0 ∧ (0 : ℚ) ≤ 90) ∧
    jsParseFloat (JsonVal.num 5) = some 5 ∧
    ((-180 : ℚ) ≤ 5 ∧ (5 : ℚ) ≤ 180) ∧
    cacheGet [] "x" = none ∧ jsTrim "x" ≠ "" ∧
    geocodeAddress (fun _ => FetchResult.httpResponse true
        (JsonBody.candidates [⟨JsonVal.num 0, JsonVal.num 5, some "Equator City"⟩])) [] "x" =
      .ok (⟨⟨39.8283, -98.5795⟩, "x"⟩, [("x", ⟨⟨39.8283, -98.5795⟩, "x"⟩)], 1) ∧
    (⟨39.8283, -98.5795⟩ : Coordinates) ≠ ⟨0, 5⟩ := by
  refine ⟨rfl, ⟨by norm_num, by norm_num⟩, rfl, ⟨by norm_num, by norm_num⟩,
    rfl, by decide, rfl, ?_⟩
  intro hcontra
  have : (39.8283 : ℚ) = 0 := congrArg Coordinates.lat hcontra
  norm_num at this

/-- Witness for C5 (amended) at a concrete input: a successful response
with truthy, in-range coordinates for `"123 Main St, Springfield"`. -/
theorem C5_witness :
    jsTruthy (JsonVal.num 39.77) = true ∧
    jsParseFloat (JsonVal.num 39.77) = some 39.77 ∧
    geocodeAddress (fun _ => FetchResult.httpResponse true
        (JsonBody.candidates
          [⟨JsonVal.num 39.77, JsonVal.num (-89.65), some "Springfield, IL, USA"⟩]))
      [] "123 Main St, Springfield" =
      .ok (⟨⟨39.77, -89.65⟩, "Springfield, IL, USA"⟩,
           cacheSet [] "123 Main St, Springfield" ⟨⟨39.77, -89.65⟩, "Springfield, IL, USA"⟩,
           1) := by
  obtain ⟨fmt, h1, h2, h3⟩ := C5_success_path
    (fun _ => FetchResult.httpResponse true
      (JsonBody.candidates
        [⟨JsonVal.num 39.77, JsonVal.num (-89.65), some "Springfield, IL, USA"⟩]))
    [] "123 Main St, Springfield"
    ⟨JsonVal.num 39.77, JsonVal.num (-89.65), some "Springfield, IL, USA"⟩ []
    39.77 (-89.65) rfl (by decide) rfl (by norm_num [jsTruthy]) (by norm_num [jsTruthy])
    rfl rfl (by norm_num) (by norm_num) (by norm_num) (by norm_num)
  rw [h2 "Springfield, IL, USA" rfl (by decide)] at h1
  refine ⟨by norm_num [jsTruthy], rfl, h1⟩

/-- C7: the batch loop returns exactly one output per input, in input
order, processing strictly sequentially; if resolving one item errors, the
item receives the default fallback coordinate with display text equal to
that input address, and processing of the remaining items continues; and
`geocodeMultipleAddresses` is this loop applied to `geocodeAddress`. -/
theorem C7_batch_shape
    (f : GeocodingCache → String → Except String (GeocodingResult × GeocodingCache × ℕ))
    (oracle : String → FetchResult) (cache : GeocodingCache) :
    (∀ addrs, (geocodeManyWith f cache addrs).1.length = addrs.length) ∧
    (∀ a rest r c1 n1, f cache a = .ok (r, c1, n1) →
      geocodeManyWith f cache (a :: rest) =
        (r :: (geocodeManyWith f c1 rest).1, (geocodeManyWith f c1 rest).2.1,
         n1 + (geocodeManyWith f c1 rest).2.2)) ∧
    (∀ a rest e, f cache a = .error e →
      geocodeManyWith f cache (a :: rest) =
        (⟨fallbackCoordinates.default, a⟩ :: (geocodeManyWith f cache rest).1,
         (geocodeManyWith f cache rest).2.1, (geocodeManyWith f cache rest).2.2)) ∧
    (∀ addrs, geocodeMultipleAddresses oracle cache addrs =
      geocodeManyWith (geocodeAddress oracle) cache addrs) := by
  refine ⟨fun addrs => geocodeManyWith_length f addrs cache, ?_, ?_, fun _ => rfl⟩
  · intro a rest r c1 n1 hf
    simp [geocodeManyWith, hf]
  · intro a rest e hf
    simp [geocodeManyWith, hf]

/-- Witness for C7 at a concrete input: a per-item resolver that errors on
`"B"`: the batch `["A", "B", "C"]` still has three outputs, and the loop at
`"B"` substitutes the default fallback and continues with the rest. -/
theorem C7_witness :
    (geocodeManyWith (fun (c : GeocodingCache) (a : String) =>
        if a = "B" then (.error "boom" : Except String (GeocodingResult × GeocodingCache × ℕ))
        else geocodeAddress (fun _ => FetchResult.netError) c a) [] ["A", "B", "C"]).1.length
      = 3 ∧
    geocodeManyWith (fun (c : GeocodingCache) (a : String) =>
        if a = "B" then (.error "boom" : Except String (GeocodingResult × GeocodingCache × ℕ))
        else geocodeAddress (fun _ => FetchResult.netError) c a) [] ("B" :: ["C"]) =
      (⟨fallbackCoordinates.default, "B"⟩ ::
        (geocodeManyWith (fun (c : GeocodingCache) (a : String) =>
          if a = "B" then (.error "boom" : Except String (GeocodingResult × GeocodingCache × ℕ))
          else geocodeAddress (fun _ => FetchResult.netError) c a) [] ["C"]).1,
       (geocodeManyWith (fun (c : GeocodingCache) (a : String) =>
          if a = "B" then (.error "boom" : Except String (GeocodingResult × GeocodingCache × ℕ))
          else geocodeAddress (fun _ => FetchResult.netError) c a) [] ["C"]).2.1,
       (geocodeManyWith (fun (c : GeocodingCache) (a : String) =>
          if a = "B" then (.error "boom" : Except String (GeocodingResult × GeocodingCache × ℕ))
          else geocodeAddress (fun _ => FetchResult.netError) c a) [] ["C"]).2.2) := by
  have h := C7_batch_shape (fun (c : GeocodingCache) (a : String) =>
      if a = "B" then (.error "boom" : Except String (GeocodingResult × GeocodingCache × ℕ))
      else geocodeAddress (fun _ => FetchResult.netError) c a)
    (fun _ => FetchResult.netError) []
  refine ⟨?_, h.2.2.1 "B" ["C"] "boom" rfl⟩
  simpa using h.1 ["A", "B", "C"]

/-- C8: starting from a cache all of whose entries satisfy the Coordinate
invariant, every result returned by `geocodeAddress` or
`geocodeMultipleAddresses` and every value stored in the resulting cache
satisfies the invariant: latitude in `[-90, 90]`, longitude in
`[-180, 180]`. -/
theorem C8_coordinate_invariant (oracle : String → FetchResult) (cache : GeocodingCache)
    (address : String) (addrs : List String)
    (hcache : ∀ kv ∈ cache, ValidCoord kv.2.coordinates) :
    (∀ r c' n, geocodeAddress oracle cache address = .ok (r, c', n) →
      ValidCoord r.coordinates ∧ ∀ kv ∈ c', ValidCoord kv.2.coordinates) ∧
    (∀ rs c' n, geocodeMultipleAddresses oracle cache addrs = (rs, c', n) →
      (∀ r ∈ rs, ValidCoord r.coordinates) ∧ ∀ kv ∈ c', ValidCoord kv.2.coordinates) :=
  ⟨fun _ _ _ h => geocodeAddress_valid _ _ _ _ _ _ hcache h,
   fun _ _ _ h => geocodeMultiple_valid _ _ _ _ _ _ hcache h⟩

/-- Witness for C8 at a concrete input: resolving `"A"` from the empty
cache yields a valid coordinate and a cache of valid coordinates. -/
theorem C8_witness :
    ValidCoord (⟨⟨39.8283, -98.5795⟩, "A"⟩ : GeocodingResult).coordinates ∧
    ∀ kv ∈ ([("A", ⟨⟨39.8283, -98.5795⟩, "A"⟩)] : GeocodingCache),
      ValidCoord kv.2.coordinates :=
  (C8_coordinate_invariant (fun _ => FetchResult.netError) [] "A" ["A"]
    (by simp)).1 ⟨⟨39.8283, -98.5795⟩, "A"⟩ [("A", ⟨⟨39.8283, -98.5795⟩, "A"⟩)] 1 rfl

/-- C9: each `geocodeAddress` call issues at most one network request
(none on a cache hit or an empty-after-trim input), leaves the cache
unchanged on a hit, and on a miss appends exactly the one new entry at the
end, leaving every other key's lookup unchanged. -/
theorem C9_cache_frame (oracle : String → FetchResult) (cache : GeocodingCache)
    (address : String) (r : GeocodingResult) (c' : GeocodingCache) (n : ℕ)
    (h : geocodeAddress oracle cache address = .ok (r, c', n)) :
    n ≤ 1 ∧
    (∀ v, cacheGet cache address = some v → c' = cache ∧ n = 0) ∧
    (cacheGet cache address = none →
      c' = cache ++ [(address, r)] ∧
      ∀ k, k ≠ address → cacheGet c' k = cacheGet cache k) ∧
    (jsTrim address = "" → n = 0) := by
  rcases geocodeAddress_cases _ _ _ _ _ _ h with ⟨h1, rfl, rfl⟩ | ⟨h1, rfl, hcase⟩
  · refine ⟨by omega, fun v _ => ⟨rfl, rfl⟩, fun hn => ?_, fun _ => rfl⟩
    rw [hn] at h1
    cases h1
  · have hfresh := cacheSet_of_fresh cache address r h1
    rcases hcase with ⟨he, rfl, rfl⟩ | ⟨hne, rfl, _⟩
    · refine ⟨by omega, fun v hv => ?_,
        fun _ => ⟨hfresh, fun k hk => cacheGet_cacheSet_ne _ _ _ _ hk⟩, fun _ => rfl⟩
      rw [h1] at hv
      cases hv
    · refine ⟨by omega, fun v hv => ?_,
        fun _ => ⟨hfresh, fun k hk => cacheGet_cacheSet_ne _ _ _ _ hk⟩,
        fun he2 => absurd he2 hne⟩
      rw [h1] at hv
      cases hv

/-- Witness for C9 at a concrete input: resolving the fresh address `"Z"`
appends exactly one entry and leaves the lookup of `"Q"` unchanged. -/
theorem C9_witness :
    (1 : ℕ) ≤ 1 ∧
    ([("Z", ⟨⟨39.8283, -98.5795⟩, "Z"⟩)] : GeocodingCache) =
      [] ++ [("Z", ⟨⟨39.8283, -98.5795⟩, "Z"⟩)] ∧
    cacheGet [("Z", ⟨⟨39.8283, -98.5795⟩, "Z"⟩)] "Q" = cacheGet [] "Q" := by
  have h := C9_cache_frame (fun _ => FetchResult.netError) [] "Z"
    ⟨⟨39.8283, -98.5795⟩, "Z"⟩ [("Z", ⟨⟨39.8283, -98.5795⟩, "Z"⟩)] 1 rfl
  exact ⟨h.1, (h.2.2.1 rfl).1, (h.2.2.1 rfl).2 "Q" (by decide)⟩

/-- C10: a successful provider response whose first candidate has a falsy
latitude that still parses as a valid number (the JSON number `0`) is
treated as an absent candidate: `geocodeAddress` takes the
regional-fallback path instead of returning the parsed coordinate, because
candidate presence is tested by truthiness of the `lat`/`lon` fields. -/
theorem C10_truthiness_gap :
    jsTruthy (JsonVal.num 0) = false ∧
    jsParseFloat (JsonVal.num 0) = some 0 ∧
    ((-90 : ℚ) ≤ 0 ∧ (0 : ℚ) ≤ 90) ∧
    geocodeAddress (fun _ => FetchResult.httpResponse true
        (JsonBody.candidates [⟨JsonVal.num 0, JsonVal.num 7, some "Null Island"⟩])) [] "y" =
      .ok (⟨⟨39.8283, -98.5795⟩, "y"⟩, [("y", ⟨⟨39.8283, -98.5795⟩, "y"⟩)], 1) ∧
    (⟨39.8283, -98.5795⟩ : Coordinates) ≠ ⟨0, 7⟩ := by
  refine ⟨rfl, rfl, ⟨by norm_num, by norm_num⟩, rfl, ?_⟩
  intro hcontra
  have : (39.8283 : ℚ) = 0 := congrArg Coordinates.lat hcontra
  norm_num at this
